import Mathlib

/-!
Shallow embedding of the optimized song finder of `boxed/jnjmusic`
(`recognition/optimized_audio_processor.py`, with the recognition boundary of
`src/music_recognition.py`).

Times are in integer milliseconds, as in the source (`duration_ms`, `start_ms`,
`end_ms`, `self.segment_length`).  Python's floor division `//` is `Int` division
`/` here (Lean's `Int` division rounds toward minus infinity for the positive
literal divisors 2 and 3 that occur).  The source stores the windows recorded in
`found_songs` in seconds (`segment.start_time = start_ms / 1000`) and converts
back with `* 1000` at the duplicate check; the two conversions compose to the
identity on exact arithmetic, so the model keeps all recorded windows in
milliseconds.

Probes (clip-extraction attempts, the events counted by `segment_counter`) are
logged explicitly as a list of window start positions so that claims about
"probes issued" are statable; `segment_counter` itself is also threaded exactly
as in the source.
-/

namespace JnjMusic

/-- A recognition result: the fields of the dict returned by `identify` that the
finder reads (`result['title']` and `result['artists']`); `artists` stands for
the string rendering of the artist list, exactly as interpolated by the source's
f-string key. -/
structure Match where
  title : String
  artists : String
deriving DecidableEq, Repr

/-- The dedup key `f"{result['title']}_{result['artists']}"` (lines 129, 222,
250, 270 of `optimized_audio_processor.py`). -/
def song_key (m : Match) : String :=
  m.title ++ "_" ++ m.artists

/-- Outcome of one call to `recognizer.identify` on a clip, as observed at the
call site in the finder:
* `found m` — the recognizer returned a result dict;
* `nothing` — the recognizer returned `None` (no song detected);
* `transportErr` — the recognizer's HTTP/API call raised; both repository
  recognizers (`ACRCloudRecognizer.identify`, `ShazamKitRecognizer.identify` in
  `src/music_recognition.py`) catch every exception, log it and return `None`;
* `hang` — the call exceeded the finder's 20-second SIGALRM alarm, which raises
  `TimeoutError` inside the call. -/
inductive RecogOutcome where
  | found (m : Match)
  | nothing
  | transportErr
  | hang
deriving DecidableEq, Repr

/-- The literal number of seconds in `with timeout(20)` (lines 121 and 215 of
`optimized_audio_processor.py`). -/
def recognition_timeout_seconds : Nat := 20

/-- The value bound to `result` after the guarded recognition call
(lines 120-125 and 198-219 of `optimized_audio_processor.py`): a transport
error is turned into `None` inside `identify` itself, and the `TimeoutError`
raised by the 20-second alarm is caught and turned into `None` by the finder. -/
def recognize_with_timeout : RecogOutcome → Option Match
  | .found m => some m
  | .nothing => none
  | .transportErr => none
  | .hang => none

/-- `create_segment_at_position` (lines 19-48): the produced segment record
spans `[start_ms, min(start_ms + segment_length, duration_ms))`; any exception
while extracting or saving yields `None`.  `ext` tells whether the extraction
at a given start position succeeds. -/
def create_segment_at_position (ext : Int → Bool) (duration w start_ms : Int) :
    Option (Int × Int) :=
  if ext start_ms then some (start_ms, min (start_ms + w) duration) else none

/-- `get_strategic_positions` (lines 50-71): nominal starts at `duration // 3`
and `duration * 2 // 3`, each replaced when it exceeds
`max_start = duration - segment_length` (by `max_start // 2`, resp. `max_start`). -/
def get_strategic_positions (audio_duration_ms w : Int) : List (Int × String) :=
  let one_third := audio_duration_ms / 3
  let two_thirds := (audio_duration_ms * 2) / 3
  let max_start := audio_duration_ms - w
  (if one_third ≤ max_start then [(one_third, "1/3")] else [(max_start / 2, "middle")])
    ++ (if two_thirds ≤ max_start then [(two_thirds, "2/3")] else [(max_start, "end")])

/-- The duplicate test of `binary_search_for_song` (lines 128-138): a result is
skipped iff its key is recorded in `found_songs` and the recorded window
overlaps `[segment_start, segment_start + segment_length)`. -/
def is_duplicate (found_songs : List (String × (Int × Int))) (m : Match)
    (segment_start w : Int) : Bool :=
  match found_songs.lookup (song_key m) with
  | some (prev_start, prev_end) =>
      decide (segment_start < prev_end) && decide (segment_start + w > prev_start)
  | none => false

/-- The accept-and-record step the orchestrator runs on a recognition result
(lines 221-229, 249-257 and 269-277 of `process_video_optimized`): if the key is
absent the mapping `key ↦ window` is recorded and the result appended, otherwise
both accumulators are left unchanged. -/
def consider (found_songs : List (String × (Int × Int)))
    (results : List (Match × Int × Int × String)) (m : Match)
    (seg : Int × Int) (label : String) :
    List (String × (Int × Int)) × List (Match × Int × Int × String) :=
  if (found_songs.lookup (song_key m)).isSome then (found_songs, results)
  else (found_songs ++ [(song_key m, seg)], results ++ [(m, seg.1, seg.2, label)])

/-- Recursion body of `binary_search_for_song` (lines 73-163), made structural
on `fuel`, the number of recursion levels the source's `depth > 10` bound still
permits (`fuel = 11 - depth`; the invariant is re-established at every
recursive call, so the wrapper below agrees with the source for every input).
Returns `(result?, segment_counter, probe starts)`. -/
def binary_search_aux (recognizer : Int → RecogOutcome) (ext : Int → Bool)
    (duration w : Int) (found_songs : List (String × (Int × Int))) :
    Nat → Int → Int → Nat → Nat → Option (Match × Int × Int) × Nat × List Int
  | 0, _, _, ctr, _ => (none, ctr, [])
  | fuel + 1, start_ms, end_ms, ctr, depth =>
    if end_ms - start_ms < w ∨ 10 < depth then
      (none, ctr, [])
    else
      let mid_ms := (start_ms + end_ms) / 2
      let segment_start := min mid_ms (end_ms - w)
      match create_segment_at_position ext duration w segment_start with
      | none => (none, ctr + 1, [segment_start])
      | some seg =>
        match recognize_with_timeout (recognizer segment_start) with
        | some m =>
          if is_duplicate found_songs m segment_start w then
            (none, ctr + 1, [segment_start])
          else
            (some (m, seg.1, seg.2), ctr + 1, [segment_start])
        | none =>
          let left :=
            if w ≤ mid_ms - start_ms then
              binary_search_aux recognizer ext duration w found_songs fuel
                start_ms mid_ms (ctr + 1) (depth + 1)
            else (none, ctr + 1, [])
          match left with
          | (some r, c1, p1) => (some r, c1, segment_start :: p1)
          | (none, c1, p1) =>
            let right :=
              if w ≤ end_ms - (mid_ms + w) then
                binary_search_aux recognizer ext duration w found_songs fuel
                  (mid_ms + w) end_ms c1 (depth + 1)
              else (none, c1, [])
            match right with
            | (some r, c2, p2) => (some r, c2, segment_start :: (p1 ++ p2))
            | (none, c2, p2) => (none, c2, segment_start :: (p1 ++ p2))

/-- `binary_search_for_song` (lines 73-163): probe the clamped midpoint window
of `[start_ms, end_ms)`; on a freshly seen result return it, on a duplicate (or
a failed extraction) abandon the range, otherwise recurse into
`[start_ms, mid)` and then `[mid + segment_length, end_ms)`, each only if it is
at least one window long, bounded by `depth > 10`. -/
def binary_search_for_song (recognizer : Int → RecogOutcome) (ext : Int → Bool)
    (duration w : Int) (found_songs : List (String × (Int × Int)))
    (start_ms end_ms : Int) (ctr depth : Nat) :
    Option (Match × Int × Int) × Nat × List Int :=
  binary_search_aux recognizer ext duration w found_songs (11 - depth)
    start_ms end_ms ctr depth

/-- Mutable state of `process_video_optimized`: the `found_songs` dict, the
`results` list, the `segment_counter`, and the instrumentation log of probe
start positions. -/
structure SearchState where
  found : List (String × (Int × Int))
  results : List (Match × Int × Int × String)
  ctr : Nat
  probes : List Int
deriving DecidableEq, Repr

/-- The strategic loop of `process_video_optimized` (lines 188-233): for each
planned position, stop if the goal is met, otherwise extract, recognize under
the alarm, and record any result whose key is new. -/
def strategic_loop (recognizer : Int → RecogOutcome) (ext : Int → Bool)
    (duration w : Int) (max_songs : Nat) :
    List (Int × String) → SearchState → SearchState
  | [], st => st
  | (position_ms, position_name) :: rest, st =>
    if max_songs ≤ st.found.length then st
    else
      match create_segment_at_position ext duration w position_ms with
      | none =>
        strategic_loop recognizer ext duration w max_songs rest
          { st with ctr := st.ctr + 1, probes := st.probes ++ [position_ms] }
      | some seg =>
        match recognize_with_timeout (recognizer position_ms) with
        | some m =>
          let fr := consider st.found st.results m seg position_name
          strategic_loop recognizer ext duration w max_songs rest
            { found := fr.1, results := fr.2, ctr := st.ctr + 1,
              probes := st.probes ++ [position_ms] }
        | none =>
          strategic_loop recognizer ext duration w max_songs rest
            { st with ctr := st.ctr + 1, probes := st.probes ++ [position_ms] }

/-- `process_video_optimized` (lines 165-287): strategic probing of the two
planned positions, then, while the goal is unmet, one bisection search per half
of the recording, each accepted through the same key check.  Returns
`(results, segment_counter, probe starts)`; the source returns `results`. -/
def process_video_optimized (recognizer : Int → RecogOutcome) (ext : Int → Bool)
    (duration w : Int) (max_songs : Nat) :
    List (Match × Int × Int × String) × Nat × List Int :=
  let st := strategic_loop recognizer ext duration w max_songs
    (get_strategic_positions duration w) ⟨[], [], 0, []⟩
  if st.found.length < max_songs then
    let half_point := duration / 2
    let st1 :=
      if st.found.length < max_songs then
        match binary_search_for_song recognizer ext duration w st.found
          0 half_point st.ctr 0 with
        | (some (m, s, e), c, p) =>
          let fr := consider st.found st.results m (s, e) "first_half"
          { found := fr.1, results := fr.2, ctr := c, probes := st.probes ++ p }
        | (none, c, p) => { st with ctr := c, probes := st.probes ++ p }
      else st
    let st2 :=
      if st1.found.length < max_songs then
        match binary_search_for_song recognizer ext duration w st1.found
          half_point duration st1.ctr 0 with
        | (some (m, s, e), c, p) =>
          let fr := consider st1.found st1.results m (s, e) "second_half"
          { found := fr.1, results := fr.2, ctr := c, probes := st1.probes ++ p }
        | (none, c, p) => { st1 with ctr := c, probes := st1.probes ++ p }
      else st1
    (st2.results, st2.ctr, st2.probes)
  else (st.results, st.ctr, st.probes)

/-- Replacing every recognizer error (timeout or transport) by the plain
"no song detected" outcome; used to state that errors and no-match are handled
identically. -/
def erase_errors (recognizer : Int → RecogOutcome) : Int → RecogOutcome :=
  fun p =>
    match recognizer p with
    | .found m => .found m
    | _ => .nothing

/-! ## Helper lemmas -/

theorem binary_search_aux_base (recognizer : Int → RecogOutcome) (ext : Int → Bool)
    (duration w : Int) (fs : List (String × (Int × Int))) (fuel : Nat)
    (s e : Int) (c depth : Nat) (h : e - s < w ∨ 10 < depth) :
    binary_search_aux recognizer ext duration w fs fuel s e c depth = (none, c, []) := by
  cases fuel with
  | zero => rfl
  | succ f => simp only [binary_search_aux, if_pos h]

theorem binary_search_base (recognizer : Int → RecogOutcome) (ext : Int → Bool)
    (duration w : Int) (fs : List (String × (Int × Int)))
    (s e : Int) (c depth : Nat) (h : e - s < w ∨ 10 < depth) :
    binary_search_for_song recognizer ext duration w fs s e c depth = (none, c, []) := by
  unfold binary_search_for_song
  exact binary_search_aux_base recognizer ext duration w fs _ s e c depth h

theorem strategic_mem_bounds (d w : Int) (hw : 0 ≤ w) (hd : w ≤ d) :
    ∀ p ∈ get_strategic_positions d w, 0 ≤ p.1 ∧ p.1 ≤ d - w := by
  intro p hp
  unfold get_strategic_positions at hp
  rcases List.mem_append.mp hp with h1 | h1 <;>
    [skip; skip] <;> split at h1 <;> simp only [List.mem_singleton] at h1 <;>
    subst h1 <;> dsimp only <;> omega

/-! ## Claims about the Position Planner -/

/-- C1: for every `durationMs ≥ windowMs` (window length nonnegative),
`get_strategic_positions` returns exactly two windows: the first starts at
`durationMs/3`, or at the midpoint of `[0, durationMs-windowMs]` when
`durationMs/3` exceeds `durationMs-windowMs`; the second starts at
`2*durationMs/3`, or at `durationMs-windowMs` itself when that point
overflows; and each returned start lies in `[0, durationMs-windowMs]`. -/
theorem strategic_positions_two_valid (d w : Int) (hw : 0 ≤ w) (hd : w ≤ d) :
    get_strategic_positions d w =
      [((if d / 3 ≤ d - w then d / 3 else (d - w) / 2),
        (if d / 3 ≤ d - w then "1/3" else "middle")),
       ((if d * 2 / 3 ≤ d - w then d * 2 / 3 else d - w),
        (if d * 2 / 3 ≤ d - w then "2/3" else "end"))] ∧
    ∀ p ∈ get_strategic_positions d w, 0 ≤ p.1 ∧ p.1 ≤ d - w := by
  refine ⟨?_, strategic_mem_bounds d w hw hd⟩
  simp only [get_strategic_positions]
  split <;> split <;> rfl

/-- Witness for C1 at `durationMs = 100000`, `windowMs = 30000`. -/
theorem strategic_positions_two_valid_witness :
    (0 : Int) ≤ 30000 ∧ (30000 : Int) ≤ 100000 ∧
    get_strategic_positions 100000 30000 = [(33333, "1/3"), (66666, "2/3")] ∧
    ∀ p ∈ get_strategic_positions 100000 30000, 0 ≤ p.1 ∧ p.1 ≤ 100000 - 30000 := by
  refine ⟨by decide, by decide, ?_⟩
  have h := strategic_positions_two_valid 100000 30000 (by decide) (by decide)
  exact ⟨by rw [h.1]; decide, h.2⟩

/-- C7 counterexample: at `durationMs = 50000`, `windowMs = 30000` (inside
`[windowMs, 2*windowMs)`) the two strategic windows do NOT degenerate to one
placement: they start at 16666 and 20000. -/
theorem strategic_degenerate_counterexample :
    (30000 : Int) ≤ 50000 ∧ (50000 : Int) < 2 * 30000 ∧
    get_strategic_positions 50000 30000 = [(16666, "1/3"), (20000, "end")] ∧
    (16666 : Int) ≠ 20000 := by
  refine ⟨by decide, by decide, by decide, by decide⟩

/-- C7 amended: for every `durationMs` in `[windowMs, 2*windowMs)` both
strategic windows are valid placements (start in `[0, durationMs-windowMs]`,
so no out-of-range window is produced), but the two starts need not
coincide. -/
theorem strategic_short_range_valid (d w : Int) (hw : 0 < w) (h1 : w ≤ d)
    (h2 : d < 2 * w) :
    ∀ p ∈ get_strategic_positions d w, 0 ≤ p.1 ∧ p.1 ≤ d - w :=
  strategic_mem_bounds d w (le_of_lt hw) h1

/-- Witness for the amended C7 at `durationMs = 50000`, `windowMs = 30000`. -/
theorem strategic_short_range_valid_witness :
    (0 : Int) < 30000 ∧ (30000 : Int) ≤ 50000 ∧ (50000 : Int) < 2 * 30000 ∧
    ∀ p ∈ get_strategic_positions 50000 30000, 0 ≤ p.1 ∧ p.1 ≤ 50000 - 30000 :=
  ⟨by decide, by decide, by decide,
    strategic_short_range_valid 50000 30000 (by decide) (by decide) (by decide)⟩

/-- C4 counterexample: at `durationMs = 10000 < windowMs = 30000` the strategic
windows are NOT shrunk to fit: the planner returns starts `-10000` and
`-20000`, violating the Window invariant `0 ≤ startMs`. -/
theorem short_recording_counterexample :
    (0 : Int) < 10000 ∧ (10000 : Int) < 30000 ∧
    get_strategic_positions 10000 30000 = [(-10000, "middle"), (-20000, "end")] ∧
    ¬ (0 ≤ (-10000 : Int)) := by
  refine ⟨by decide, by decide, by decide, by decide⟩

/-- C4 amended: for every recording with `0 < durationMs < windowMs` the
Strategic phase still runs with its two windows, but they are not shrunk to
fit: the planner returns the starts `(durationMs-windowMs)/2` and
`durationMs-windowMs`, both negative, so the Window invariant `0 ≤ startMs`
fails; the Bisecting phases are skipped entirely (each half's search returns
immediately, issuing no probe). -/
theorem short_recording_spec (d w : Int) (h1 : 0 < d) (h2 : d < w) :
    get_strategic_positions d w = [((d - w) / 2, "middle"), (d - w, "end")] ∧
    (d - w) / 2 < 0 ∧ d - w < 0 ∧
    ∀ (recognizer : Int → RecogOutcome) (ext : Int → Bool)
      (fs : List (String × (Int × Int))) (ctr : Nat),
      binary_search_for_song recognizer ext d w fs 0 (d / 2) ctr 0 =
        (none, ctr, []) ∧
      binary_search_for_song recognizer ext d w fs (d / 2) d ctr 0 =
        (none, ctr, []) := by
  refine ⟨?_, by omega, by omega, ?_⟩
  · simp only [get_strategic_positions]
    rw [if_neg (by omega), if_neg (by omega)]
    rfl
  · intro recognizer ext fs ctr
    exact ⟨binary_search_base _ _ _ _ _ _ _ _ _ (Or.inl (by omega)),
      binary_search_base _ _ _ _ _ _ _ _ _ (Or.inl (by omega))⟩

/-- Witness for the amended C4 at `durationMs = 10000`, `windowMs = 30000`. -/
theorem short_recording_spec_witness :
    get_strategic_positions 10000 30000 = [(-10000, "middle"), (-20000, "end")] ∧
    binary_search_for_song (fun _ => RecogOutcome.nothing) (fun _ => true)
      10000 30000 [] 0 (10000 / 2) 0 0 = (none, 0, []) ∧
    binary_search_for_song (fun _ => RecogOutcome.nothing) (fun _ => true)
      10000 30000 [] (10000 / 2) 10000 0 0 = (none, 0, []) := by
  have h := short_recording_spec 10000 30000 (by decide) (by decide)
  exact ⟨h.1, (h.2.2.2 (fun _ => RecogOutcome.nothing) (fun _ => true) [] 0).1,
    (h.2.2.2 (fun _ => RecogOutcome.nothing) (fun _ => true) [] 0).2⟩

/-! ## Claims about the Search Orchestrator -/

/-- C9: `process_video_optimized` with `max_songs = 0` issues zero probes and
returns an empty result, for every recording, recognizer and extractor. -/
theorem max_songs_zero (recognizer : Int → RecogOutcome) (ext : Int → Bool)
    (d w : Int) :
    process_video_optimized recognizer ext d w 0 = ([], 0, []) := by
  have hloop : ∀ ps st, strategic_loop recognizer ext d w 0 ps st = st := by
    intro ps st
    cases ps with
    | nil => rfl
    | cons a rest =>
      obtain ⟨pos, name⟩ := a
      simp only [strategic_loop, if_pos (Nat.zero_le _)]
  unfold process_video_optimized
  rw [hloop]
  rfl

/-! ## Claims about the Dedup Tracker -/

/-- C3: a Match whose song key is recorded in `found_songs` with a window that
overlaps the probe window `[sstart, sstart + w)` (standard half-open overlap
test) is classified as duplicate, and the accept-and-record step leaves both
the results and `found_songs` unchanged; a Match whose key is absent is never
classified as duplicate, and the accept-and-record step appends the result and
records the key-to-window mapping. -/
theorem dedup_decision_spec (found_songs : List (String × (Int × Int)))
    (results : List (Match × Int × Int × String)) (m : Match)
    (sstart send w : Int) (lbl : String) :
    (∀ ps pe, found_songs.lookup (song_key m) = some (ps, pe) →
      sstart < pe → ps < sstart + w →
      is_duplicate found_songs m sstart w = true ∧
      consider found_songs results m (sstart, send) lbl =
        (found_songs, results)) ∧
    (found_songs.lookup (song_key m) = none →
      is_duplicate found_songs m sstart w = false ∧
      consider found_songs results m (sstart, send) lbl =
        (found_songs ++ [(song_key m, (sstart, send))],
         results ++ [(m, sstart, send, lbl)])) := by
  constructor
  · intro ps pe hlook h1 h2
    constructor
    · simp only [is_duplicate, hlook, Bool.and_eq_true, decide_eq_true_eq]
      exact ⟨h1, h2⟩
    · simp only [consider, hlook, Option.isSome_some, if_pos]
  · intro hlook
    constructor
    · simp only [is_duplicate, hlook]
    · simp only [consider, hlook, Option.isSome_none, Bool.false_eq_true,
        if_false]

/-- Witness for C3: key `"A_X"` recorded with window `[3, 5)` makes a probe at
`[4, 6)` a duplicate; key `"B_Y"` is absent and gets accepted and recorded. -/
theorem dedup_decision_spec_witness :
    (is_duplicate [("A_X", (3, 5))] ⟨"A", "X"⟩ 4 2 = true ∧
      consider [("A_X", (3, 5))] [] ⟨"A", "X"⟩ (4, 6) "1/3" =
        ([("A_X", (3, 5))], [])) ∧
    (is_duplicate [("A_X", (3, 5))] ⟨"B", "Y"⟩ 4 2 = false ∧
      consider [("A_X", (3, 5))] [] ⟨"B", "Y"⟩ (4, 6) "1/3" =
        ([("A_X", (3, 5)), ("B_Y", (4, 6))], [(⟨"B", "Y"⟩, 4, 6, "1/3")])) :=
  ⟨(dedup_decision_spec [("A_X", (3, 5))] [] ⟨"A", "X"⟩ 4 6 2 "1/3").1 3 5
      (by decide) (by decide) (by decide),
    (dedup_decision_spec [("A_X", (3, 5))] [] ⟨"B", "Y"⟩ 4 6 2 "1/3").2
      (by decide)⟩

/-- C10: when the bisection's midpoint probe yields a Match whose song key is
already recorded but whose recorded window does NOT overlap the probe window,
the bisection is not stopped by the duplicate check: it returns the Match,
ending that half's search; the orchestrator's accept step then silently drops
the occurrence, leaving the results and `found_songs` (hence the count toward
`max_songs`) unchanged. -/
theorem known_identity_dropped (recognizer : Int → RecogOutcome)
    (ext : Int → Bool) (duration w : Int)
    (found_songs : List (String × (Int × Int)))
    (results : List (Match × Int × Int × String)) (m : Match)
    (s e : Int) (ctr depth : Nat) (lbl : String) (ps pe sstart : Int)
    (hs : sstart = min ((s + e) / 2) (e - w))
    (hdepth : depth ≤ 10) (hrange : ¬ e - s < w)
    (hext : ext sstart = true)
    (hrec : recognizer sstart = RecogOutcome.found m)
    (hlook : found_songs.lookup (song_key m) = some (ps, pe))
    (hnoov : ¬ (sstart < pe ∧ ps < sstart + w)) :
    binary_search_for_song recognizer ext duration w found_songs s e ctr depth =
      (some (m, sstart, min (sstart + w) duration), ctr + 1, [sstart]) ∧
    consider found_songs results m (sstart, min (sstart + w) duration) lbl =
      (found_songs, results) := by
  constructor
  · have hfuel : 11 - depth = (10 - depth) + 1 := by omega
    unfold binary_search_for_song
    rw [hfuel]
    simp only [binary_search_aux]
    rw [if_neg (by omega), ← hs]
    simp only [create_segment_at_position, hext, if_true, hrec,
      recognize_with_timeout]
    have hdup : is_duplicate found_songs m sstart w = false := by
      simp only [is_duplicate, hlook, Bool.and_eq_true, decide_eq_true_eq,
        Bool.and_eq_false_iff, decide_eq_false_iff_not]
      tauto
    rw [hdup]
    rfl
  · simp only [consider, hlook, Option.isSome_some, if_pos]

/-- Witness for C10: key `"A_X"` recorded with window `[100, 200)`, probe at
`[4, 6)` in range `[0, 8)`, depth 0. -/
theorem known_identity_dropped_witness :
    binary_search_for_song (fun _ => RecogOutcome.found ⟨"A", "X"⟩)
      (fun _ => true) 100 2 [("A_X", (100, 200))] 0 8 0 0 =
      (some (⟨"A", "X"⟩, 4, 6), 1, [4]) ∧
    consider [("A_X", (100, 200))] [] ⟨"A", "X"⟩ (4, 6) "first_half" =
      ([("A_X", (100, 200))], []) := by
  have h := known_identity_dropped (fun _ => RecogOutcome.found ⟨"A", "X"⟩)
    (fun _ => true) 100 2 [("A_X", (100, 200))] [] ⟨"A", "X"⟩ 0 8 0 0
    "first_half" 100 200 4 (by decide) (by decide) (by decide) (by decide)
    (by decide) (by decide) (by decide)
  exact h

/-! ## Claims about the recursive bisection step -/

/-- C2 counterexample: in the range `[0, 8)` with `windowMs = 2`, the midpoint
probe (window start 4) yields a Match that is a duplicate of the recorded
`"A_X"` at `[3, 5)`; the claim then demands recursion into the sub-ranges,
whose search would produce the fresh Match `"B_Y"` (window start 2), but the
procedure returns no Match at all and issues no further probe. -/
theorem bisection_step_counterexample :
    is_duplicate [("A_X", (3, 5))] ⟨"A", "X"⟩ 4 2 = true ∧
    binary_search_for_song
      (fun p => if p = 4 then RecogOutcome.found ⟨"A", "X"⟩
        else if p = 2 then RecogOutcome.found ⟨"B", "Y"⟩
        else RecogOutcome.nothing)
      (fun _ => true) 100 2 [("A_X", (3, 5))] 0 4 1 1 =
      (some (⟨"B", "Y"⟩, 2, 4), 2, [2]) ∧
    binary_search_for_song
      (fun p => if p = 4 then RecogOutcome.found ⟨"A", "X"⟩
        else if p = 2 then RecogOutcome.found ⟨"B", "Y"⟩
        else RecogOutcome.nothing)
      (fun _ => true) 100 2 [("A_X", (3, 5))] 0 8 0 0 = (none, 1, [4]) := by
  refine ⟨by decide, by decide, by decide⟩

/-- C2 amended: one bisection step on `[start, end)` with `end-start ≥
windowMs` and `depth ≤ 10` probes the window starting at
`min(mid, end-windowMs)`, `mid = (start+end)/2`; if the probe yields a Match
not classified as duplicate, it is returned immediately (even when its
identity is already recorded, provided the recorded window does not overlap);
if the probe yields a duplicate Match the whole range is abandoned
immediately, with no recursion; only when the probe yields no Match does the
step recurse into `[start, mid)` and then `[mid+windowMs, end)`, skipping any
sub-range shorter than `windowMs`, and return the first Match either
sub-search produces. -/
theorem bisection_step_spec (recognizer : Int → RecogOutcome) (ext : Int → Bool)
    (duration w : Int) (found_songs : List (String × (Int × Int)))
    (s e : Int) (ctr depth : Nat) (mid sstart : Int)
    (hm : mid = (s + e) / 2) (hs : sstart = min mid (e - w))
    (hrange : ¬ e - s < w) (hdepth : depth ≤ 10) (hext : ext sstart = true) :
    (∀ m, recognizer sstart = RecogOutcome.found m →
      is_duplicate found_songs m sstart w = false →
      binary_search_for_song recognizer ext duration w found_songs s e ctr depth =
        (some (m, sstart, min (sstart + w) duration), ctr + 1, [sstart])) ∧
    (∀ m, recognizer sstart = RecogOutcome.found m →
      is_duplicate found_songs m sstart w = true →
      binary_search_for_song recognizer ext duration w found_songs s e ctr depth =
        (none, ctr + 1, [sstart])) ∧
    (recognize_with_timeout (recognizer sstart) = none →
      binary_search_for_song recognizer ext duration w found_songs s e ctr depth =
        (match (if w ≤ mid - s then
            binary_search_for_song recognizer ext duration w found_songs
              s mid (ctr + 1) (depth + 1)
          else (none, ctr + 1, [])) with
        | (some r, c1, p1) => (some r, c1, sstart :: p1)
        | (none, c1, p1) =>
          match (if w ≤ e - (mid + w) then
              binary_search_for_song recognizer ext duration w found_songs
                (mid + w) e c1 (depth + 1)
            else (none, c1, [])) with
          | (some r, c2, p2) => (some r, c2, sstart :: (p1 ++ p2))
          | (none, c2, p2) => (none, c2, sstart :: (p1 ++ p2)))) := by
  have hfuel : 11 - depth = (10 - depth) + 1 := by omega
  have hfuel2 : 11 - (depth + 1) = 10 - depth := by omega
  refine ⟨?_, ?_, ?_⟩
  · intro m hrec hdup
    unfold binary_search_for_song
    rw [hfuel]
    simp only [binary_search_aux]
    rw [if_neg (by omega), ← hm, ← hs]
    simp only [create_segment_at_position, hext, if_true, hrec,
      recognize_with_timeout, hdup, Bool.false_eq_true, if_false]
  · intro m hrec hdup
    unfold binary_search_for_song
    rw [hfuel]
    simp only [binary_search_aux]
    rw [if_neg (by omega), ← hm, ← hs]
    simp only [create_segment_at_position, hext, if_true, hrec,
      recognize_with_timeout, hdup, if_true]
  · intro hrec
    unfold binary_search_for_song
    rw [hfuel, hfuel2]
    simp only [binary_search_aux]
    rw [if_neg (by omega), ← hm, ← hs]
    simp only [create_segment_at_position, hext, if_true]
    rw [hrec]

/-- Witness for the amended C2 at the duplicate-probe scenario of the
counterexample: the step returns no Match with the single probe `[4]`. -/
theorem bisection_step_spec_witness :
    binary_search_for_song
      (fun p => if p = 4 then RecogOutcome.found ⟨"A", "X"⟩
        else if p = 2 then RecogOutcome.found ⟨"B", "Y"⟩
        else RecogOutcome.nothing)
      (fun _ => true) 100 2 [("A_X", (3, 5))] 0 8 0 0 = (none, 1, [4]) :=
  (bisection_step_spec
    (fun p => if p = 4 then RecogOutcome.found ⟨"A", "X"⟩
      else if p = 2 then RecogOutcome.found ⟨"B", "Y"⟩
      else RecogOutcome.nothing)
    (fun _ => true) 100 2 [("A_X", (3, 5))] 0 8 0 0 4 4
    (by decide) (by decide) (by decide) (by decide) (by decide)).2.1
    ⟨"A", "X"⟩ (by decide) (by decide)

/-! ## Error handling -/

theorem recognize_erase_errors (recognizer : Int → RecogOutcome) (p : Int) :
    recognize_with_timeout (erase_errors recognizer p) =
      recognize_with_timeout (recognizer p) := by
  unfold erase_errors
  cases recognizer p <;> rfl

theorem binary_search_aux_congr (r1 r2 : Int → RecogOutcome) (ext : Int → Bool)
    (duration w : Int) (fs : List (String × (Int × Int)))
    (h : ∀ p, recognize_with_timeout (r1 p) = recognize_with_timeout (r2 p)) :
    ∀ fuel s e c depth,
      binary_search_aux r1 ext duration w fs fuel s e c depth =
        binary_search_aux r2 ext duration w fs fuel s e c depth := by
  intro fuel
  induction fuel with
  | zero => intro s e c depth; rfl
  | succ f ih =>
    intro s e c depth
    simp only [binary_search_aux, h, ih]

theorem binary_search_congr (r1 r2 : Int → RecogOutcome) (ext : Int → Bool)
    (duration w : Int)
    (h : ∀ p, recognize_with_timeout (r1 p) = recognize_with_timeout (r2 p)) :
    ∀ fs s e c depth,
      binary_search_for_song r1 ext duration w fs s e c depth =
        binary_search_for_song r2 ext duration w fs s e c depth := by
  intro fs s e c depth
  unfold binary_search_for_song
  exact binary_search_aux_congr r1 r2 ext duration w fs h _ s e c depth

theorem strategic_loop_congr (r1 r2 : Int → RecogOutcome) (ext : Int → Bool)
    (duration w : Int) (maxS : Nat)
    (h : ∀ p, recognize_with_timeout (r1 p) = recognize_with_timeout (r2 p)) :
    ∀ ps st, strategic_loop r1 ext duration w maxS ps st =
      strategic_loop r2 ext duration w maxS ps st := by
  intro ps
  induction ps with
  | nil => intro st; rfl
  | cons a rest ih =>
    intro st
    obtain ⟨pos, name⟩ := a
    simp only [strategic_loop, h, ih]

theorem process_video_congr (r1 r2 : Int → RecogOutcome) (ext : Int → Bool)
    (duration w : Int) (maxS : Nat)
    (h : ∀ p, recognize_with_timeout (r1 p) = recognize_with_timeout (r2 p)) :
    process_video_optimized r1 ext duration w maxS =
      process_video_optimized r2 ext duration w maxS := by
  simp only [process_video_optimized,
    strategic_loop_congr r1 r2 ext duration w maxS h,
    binary_search_congr r1 r2 ext duration w h]

/-- C5: the recognition call is wrapped in the 20-second alarm, and a
recognizer timeout (`hang`) or transport error is treated identically to "no
song found at this window": the whole search behaves exactly as it would if
those probes had returned nothing, and still produces its result. -/
theorem timeout_transport_no_match (recognizer : Int → RecogOutcome)
    (ext : Int → Bool) (duration w : Int) (maxS : Nat) :
    recognize_with_timeout RecogOutcome.hang = none ∧
    recognize_with_timeout RecogOutcome.transportErr = none ∧
    recognition_timeout_seconds = 20 ∧
    process_video_optimized recognizer ext duration w maxS =
      process_video_optimized (erase_errors recognizer) ext duration w maxS :=
  ⟨rfl, rfl, rfl,
    (process_video_congr (erase_errors recognizer) recognizer ext duration w
      maxS (recognize_erase_errors recognizer)).symm⟩

/-! ## Probe bounds and termination -/

theorem binary_search_aux_probes_le (recognizer : Int → RecogOutcome)
    (ext : Int → Bool) (duration w : Int) (fs : List (String × (Int × Int))) :
    ∀ fuel s e c depth,
      (binary_search_aux recognizer ext duration w fs fuel s e c depth).2.2.length
        ≤ 2 ^ fuel - 1 := by
  intro fuel
  induction fuel with
  | zero => intro s e c depth; simp [binary_search_aux]
  | succ f ih =>
    intro s e c depth
    have h2f : 0 < 2 ^ f := by positivity
    have h2s : 2 ^ (f + 1) = 2 * 2 ^ f := by rw [pow_succ]; ring
    simp only [binary_search_aux]
    split
    · simp
    · cases hcr : create_segment_at_position ext duration w
        (min ((s + e) / 2) (e - w)) with
      | none => dsimp only; simp; omega
      | some seg =>
        dsimp only
        cases hrw : recognize_with_timeout (recognizer
            (min ((s + e) / 2) (e - w))) with
        | some m => dsimp only; split <;> (simp; omega)
        | none =>
          dsimp only
          by_cases hifL : w ≤ (s + e) / 2 - s
          · rw [if_pos hifL]
            rcases hL : binary_search_aux recognizer ext duration w fs f
              s ((s + e) / 2) (c + 1) (depth + 1) with ⟨rl, c1, p1⟩
            have hp1 : p1.length ≤ 2 ^ f - 1 := by
              have := ih s ((s + e) / 2) (c + 1) (depth + 1)
              rw [hL] at this
              exact this
            cases rl with
            | some r => simp; omega
            | none =>
              dsimp only
              by_cases hifR : w ≤ e - ((s + e) / 2 + w)
              · rw [if_pos hifR]
                rcases hR : binary_search_aux recognizer ext duration w fs f
                  ((s + e) / 2 + w) e c1 (depth + 1) with ⟨rr, c2, p2⟩
                have hp2 : p2.length ≤ 2 ^ f - 1 := by
                  have := ih ((s + e) / 2 + w) e c1 (depth + 1)
                  rw [hR] at this
                  exact this
                cases rr <;> (simp; omega)
              · rw [if_neg hifR]
                simp; omega
          · rw [if_neg hifL]
            dsimp only
            by_cases hifR : w ≤ e - ((s + e) / 2 + w)
            · rw [if_pos hifR]
              rcases hR : binary_search_aux recognizer ext duration w fs f
                ((s + e) / 2 + w) e (c + 1) (depth + 1) with ⟨rr, c2, p2⟩
              have hp2 : p2.length ≤ 2 ^ f - 1 := by
                have := ih ((s + e) / 2 + w) e (c + 1) (depth + 1)
                rw [hR] at this
                exact this
              cases rr <;> (simp; omega)
            · rw [if_neg hifR]
              simp; omega

theorem binary_search_aux_no_match (recognizer : Int → RecogOutcome)
    (ext : Int → Bool) (duration w : Int) (fs : List (String × (Int × Int)))
    (h : ∀ p, recognize_with_timeout (recognizer p) = none) :
    ∀ fuel s e c depth,
      (binary_search_aux recognizer ext duration w fs fuel s e c depth).1 =
        none := by
  intro fuel
  induction fuel with
  | zero => intro s e c depth; rfl
  | succ f ih =>
    intro s e c depth
    simp only [binary_search_aux, h]
    split
    · rfl
    · cases hcr : create_segment_at_position ext duration w
        (min ((s + e) / 2) (e - w)) with
      | none => rfl
      | some seg =>
        dsimp only
        by_cases hifL : w ≤ (s + e) / 2 - s
        · rw [if_pos hifL]
          rcases hL : binary_search_aux recognizer ext duration w fs f
            s ((s + e) / 2) (c + 1) (depth + 1) with ⟨rl, c1, p1⟩
          have hrl : rl = none := by
            have := ih s ((s + e) / 2) (c + 1) (depth + 1)
            rw [hL] at this
            exact this
          subst hrl
          dsimp only
          by_cases hifR : w ≤ e - ((s + e) / 2 + w)
          · rw [if_pos hifR]
            rcases hR : binary_search_aux recognizer ext duration w fs f
              ((s + e) / 2 + w) e c1 (depth + 1) with ⟨rr, c2, p2⟩
            have hrr : rr = none := by
              have := ih ((s + e) / 2 + w) e c1 (depth + 1)
              rw [hR] at this
              exact this
            subst hrr
            rfl
          · rw [if_neg hifR]
        · rw [if_neg hifL]
          dsimp only
          by_cases hifR : w ≤ e - ((s + e) / 2 + w)
          · rw [if_pos hifR]
            rcases hR : binary_search_aux recognizer ext duration w fs f
              ((s + e) / 2 + w) e (c + 1) (depth + 1) with ⟨rr, c2, p2⟩
            have hrr : rr = none := by
              have := ih ((s + e) / 2 + w) e (c + 1) (depth + 1)
              rw [hR] at this
              exact this
            subst hrr
            rfl
          · rw [if_neg hifR]

theorem strategic_positions_length (d w : Int) :
    (get_strategic_positions d w).length = 2 := by
  simp only [get_strategic_positions]
  split <;> split <;> rfl

theorem strategic_loop_no_match (recognizer : Int → RecogOutcome)
    (ext : Int → Bool) (duration w : Int) (maxS : Nat)
    (h : ∀ p, recognize_with_timeout (recognizer p) = none) :
    ∀ ps st, (strategic_loop recognizer ext duration w maxS ps st).results =
        st.results ∧
      (strategic_loop recognizer ext duration w maxS ps st).found = st.found ∧
      (strategic_loop recognizer ext duration w maxS ps st).probes.length ≤
        st.probes.length + ps.length := by
  intro ps
  induction ps with
  | nil => intro st; refine ⟨rfl, rfl, ?_⟩; simp [strategic_loop]
  | cons a rest ih =>
    intro st
    obtain ⟨pos, name⟩ := a
    simp only [strategic_loop, h]
    split
    · refine ⟨rfl, rfl, ?_⟩
      simp only [List.length_cons]
      omega
    · cases hcr : create_segment_at_position ext duration w pos with
      | none =>
        obtain ⟨a1, a2, a3⟩ :=
          ih { st with ctr := st.ctr + 1, probes := st.probes ++ [pos] }
        refine ⟨a1, a2, ?_⟩
        simp only [List.length_append, List.length_singleton,
          List.length_cons, List.length_nil] at a3 ⊢
        omega
      | some seg =>
        obtain ⟨a1, a2, a3⟩ :=
          ih { st with ctr := st.ctr + 1, probes := st.probes ++ [pos] }
        refine ⟨a1, a2, ?_⟩
        simp only [List.length_append, List.length_singleton,
          List.length_cons, List.length_nil] at a3 ⊢
        omega

/-- C6: the bisection abandons a branch as soon as its range is shorter than
one window or its depth exceeds the bound of 10 levels, every branch issues at
most `2^11 - 1` probes, and a full search in which every probe returns no
match returns an empty result having issued at most `2 + 2*(2^11 - 1)` probes
(two strategic probes plus one bounded bisection per half). -/
theorem bisection_bounded (recognizer : Int → RecogOutcome) (ext : Int → Bool)
    (d w : Int) (maxS : Nat)
    (hrec : ∀ p, recognize_with_timeout (recognizer p) = none) :
    (∀ fs s e c depth, (e - s < w ∨ 10 < depth) →
      binary_search_for_song recognizer ext d w fs s e c depth = (none, c, [])) ∧
    (∀ fs s e c depth,
      (binary_search_for_song recognizer ext d w fs s e c depth).2.2.length ≤
        2 ^ 11 - 1) ∧
    (process_video_optimized recognizer ext d w maxS).1 = [] ∧
    (process_video_optimized recognizer ext d w maxS).2.2.length ≤
      2 + 2 * (2 ^ 11 - 1) := by
  refine ⟨?_, ?_, ?_⟩
  · intro fs s e c depth hbase
    exact binary_search_base recognizer ext d w fs s e c depth hbase
  · intro fs s e c depth
    have h1 := binary_search_aux_probes_le recognizer ext d w fs (11 - depth)
      s e c depth
    have h2 : (2 : Nat) ^ (11 - depth) ≤ 2 ^ 11 :=
      Nat.pow_le_pow_right (by norm_num) (by omega)
    unfold binary_search_for_song
    omega
  · obtain ⟨hres, hfound, hlen⟩ := strategic_loop_no_match recognizer ext d w
      maxS hrec (get_strategic_positions d w) ⟨[], [], 0, []⟩
    rw [strategic_positions_length d w] at hlen
    simp only [List.length_nil, Nat.zero_add] at hlen
    simp only [process_video_optimized]
    set st := strategic_loop recognizer ext d w maxS
      (get_strategic_positions d w) ⟨[], [], 0, []⟩ with hst
    by_cases h0 : st.found.length < maxS
    · rw [if_pos h0, if_pos h0]
      rcases hb1 : binary_search_for_song recognizer ext d w st.found
        0 (d / 2) st.ctr 0 with ⟨r1, c1, p1⟩
      have hr1 : r1 = none := by
        have := binary_search_aux_no_match recognizer ext d w st.found hrec
          (11 - 0) 0 (d / 2) st.ctr 0
        unfold binary_search_for_song at hb1
        rw [hb1] at this
        exact this
      subst hr1
      have hp1 : p1.length ≤ 2 ^ 11 - 1 := by
        have h1 := binary_search_aux_probes_le recognizer ext d w st.found
          (11 - 0) 0 (d / 2) st.ctr 0
        unfold binary_search_for_song at hb1
        rw [hb1] at h1
        simpa using h1
      dsimp only
      rw [if_pos h0]
      rcases hb2 : binary_search_for_song recognizer ext d w st.found
        (d / 2) d c1 0 with ⟨r2, c2, p2⟩
      have hr2 : r2 = none := by
        have := binary_search_aux_no_match recognizer ext d w st.found hrec
          (11 - 0) (d / 2) d c1 0
        unfold binary_search_for_song at hb2
        rw [hb2] at this
        exact this
      subst hr2
      have hp2 : p2.length ≤ 2 ^ 11 - 1 := by
        have h1 := binary_search_aux_probes_le recognizer ext d w st.found
          (11 - 0) (d / 2) d c1 0
        unfold binary_search_for_song at hb2
        rw [hb2] at h1
        simpa using h1
      dsimp only
      refine ⟨hres, ?_⟩
      simp only [List.length_append]
      omega
    · rw [if_neg h0]
      refine ⟨hres, ?_⟩
      dsimp only
      omega

/-- Witness for C6: a 600 s recording with a 30 s window, `maxSongs = 2`, and
a recognizer that never matches. -/
theorem bisection_bounded_witness :
    (process_video_optimized (fun _ => RecogOutcome.nothing) (fun _ => true)
      600000 30000 2).1 = [] ∧
    (process_video_optimized (fun _ => RecogOutcome.nothing) (fun _ => true)
      600000 30000 2).2.2.length ≤ 2 + 2 * (2 ^ 11 - 1) :=
  ⟨(bisection_bounded (fun _ => RecogOutcome.nothing) (fun _ => true)
      600000 30000 2 (fun _ => rfl)).2.2.1,
    (bisection_bounded (fun _ => RecogOutcome.nothing) (fun _ => true)
      600000 30000 2 (fun _ => rfl)).2.2.2⟩

theorem binary_search_ext_fail (recognizer : Int → RecogOutcome)
    (ext : Int → Bool) (duration w : Int) (fs : List (String × (Int × Int)))
    (s e : Int) (c depth : Nat) (hrange : ¬ e - s < w) (hdepth : depth ≤ 10)
    (hext : ext (min ((s + e) / 2) (e - w)) = false) :
    binary_search_for_song recognizer ext duration w fs s e c depth =
      (none, c + 1, [min ((s + e) / 2) (e - w)]) := by
  have hfuel : 11 - depth = (10 - depth) + 1 := by omega
  unfold binary_search_for_song
  rw [hfuel]
  simp only [binary_search_aux]
  rw [if_neg (by omega)]
  simp only [create_segment_at_position, hext, Bool.false_eq_true, if_false]

theorem strategic_positions_pair (d w : Int) :
    ∃ a b, get_strategic_positions d w = [a, b] := by
  simp only [get_strategic_positions]
  split <;> split <;> exact ⟨_, _, rfl⟩

/-- C8 counterexample: in the bisection of `[0, 8)` with `windowMs = 2`, an
extraction failure at the midpoint probe (start 4) abandons the whole branch:
only probe 4 is attempted, while with working extraction the same search would
also issue the probes 2, 0 and 6. -/
theorem extraction_failure_counterexample :
    binary_search_for_song (fun _ => RecogOutcome.nothing)
      (fun p => decide (p ≠ 4)) 100 2 [] 0 8 0 0 = (none, 1, [4]) ∧
    binary_search_for_song (fun _ => RecogOutcome.nothing)
      (fun _ => true) 100 2 [] 0 8 0 0 = (none, 4, [4, 2, 0, 6]) :=
  ⟨by decide, by decide⟩

/-- C8 amended: a probe whose clip extraction fails is counted and treated as
no-match, and the overall search is not aborted: the strategic loop continues
with the next position, and a search whose extraction always fails still runs
both strategic probes and one probe per bisection half before returning an
empty result.  In the bisection, however, an extraction failure abandons the
entire branch: the search of that range ends with that single counted probe,
with no recursion into its sub-ranges. -/
theorem extraction_failure_spec (recognizer : Int → RecogOutcome)
    (d w : Int) (maxS : Nat) :
    (∀ (ext : Int → Bool) fs s e c depth, ¬ e - s < w → depth ≤ 10 →
      ext (min ((s + e) / 2) (e - w)) = false →
      binary_search_for_song recognizer ext d w fs s e c depth =
        (none, c + 1, [min ((s + e) / 2) (e - w)])) ∧
    (∀ (ext : Int → Bool) pos name rest st, ext pos = false →
      ¬ maxS ≤ st.found.length →
      strategic_loop recognizer ext d w maxS ((pos, name) :: rest) st =
        strategic_loop recognizer ext d w maxS rest
          { st with ctr := st.ctr + 1, probes := st.probes ++ [pos] }) ∧
    (1 ≤ maxS → 0 < w → 2 * w ≤ d →
      process_video_optimized recognizer (fun _ => false) d w maxS =
        ([], 4, (get_strategic_positions d w).map Prod.fst ++
          [min ((0 + d / 2) / 2) (d / 2 - w),
           min ((d / 2 + d) / 2) (d - w)])) := by
  refine ⟨?_, ?_, ?_⟩
  · intro ext fs s e c depth h1 h2 h3
    exact binary_search_ext_fail recognizer ext d w fs s e c depth h1 h2 h3
  · intro ext pos name rest st h1 h2
    simp only [strategic_loop]
    rw [if_neg h2]
    simp only [create_segment_at_position, h1, Bool.false_eq_true, if_false]
  · intro hms hw hd
    obtain ⟨a, b, hab⟩ := strategic_positions_pair d w
    obtain ⟨pa, na⟩ := a
    obtain ⟨pb, nb⟩ := b
    have h0 : (maxS ≤ (0 : Nat)) = False := eq_false (by omega)
    have hloop : strategic_loop recognizer (fun _ => false) d w maxS
        [(pa, na), (pb, nb)] ⟨[], [], 0, []⟩ = ⟨[], [], 2, [pa, pb]⟩ := by
      simp only [strategic_loop, create_segment_at_position, List.length_nil,
        h0, if_false, Bool.false_eq_true]
      rfl
    have hb1 : binary_search_for_song recognizer (fun _ => false) d w []
        0 (d / 2) 2 0 = (none, 3, [min ((0 + d / 2) / 2) (d / 2 - w)]) :=
      binary_search_ext_fail recognizer (fun _ => false) d w [] 0 (d / 2) 2 0
        (by omega) (by omega) rfl
    have hb2 : binary_search_for_song recognizer (fun _ => false) d w []
        (d / 2) d 3 0 = (none, 4, [min ((d / 2 + d) / 2) (d - w)]) :=
      binary_search_ext_fail recognizer (fun _ => false) d w [] (d / 2) d 3 0
        (by omega) (by omega) rfl
    have hm0 : (0 < maxS) = True := eq_true (by omega)
    simp only [process_video_optimized, hab, hloop, hb1, hb2,
      List.length_nil, hm0, if_true]
    simp

/-- Witness for the amended C8: a 100 s recording, 30 s window, `maxSongs = 2`,
extraction failing everywhere: both strategic probes (33333, 66666) and one
probe per half (20000, 70000) are attempted, and the result is empty. -/
theorem extraction_failure_spec_witness :
    process_video_optimized (fun _ => RecogOutcome.nothing) (fun _ => false)
      100000 30000 2 = ([], 4, [33333, 66666, 20000, 70000]) :=
  ((extraction_failure_spec (fun _ => RecogOutcome.nothing) 100000 30000
      2).2.2 (by decide) (by decide) (by decide)).trans (by decide)

end JnjMusic
